import Mathlib

/-!
Shallow embedding of the bighealth local artifact/metadata store
(`modules/qkview_directory_utils.py` and the download-decision logic of
`modules/ihealth_qkview_download.py`), together with proofs of the spec
claims about it.

Modelling conventions:
* Python/JSON values are modelled by `JValue` (JSON numbers are modelled as
  integers; no claim involves floating-point JSON numbers).
* Python dicts are association lists with unique keys, in insertion order;
  lookup finds the first matching key, assignment replaces in place or
  appends, exactly like `dict.__getitem__` / `dict.__setitem__`.
* Strings are sequences of code points (`String.data : List Char`), matching
  Python `str` semantics; `lower`/`isalnum`/`isdigit` are modelled with the
  ASCII versions from the Lean core library (the repository only ever feeds
  ASCII hostnames and identifiers through these paths).
* Filesystem state is modelled per base directory as a list of immediate
  subdirectories, each carrying its `metadata.json` state (absent, present
  but unparseable, or parsed JSON).  Regular files in the base directory are
  skipped by the source's `item.is_dir()` checks and are not modelled.
-/

namespace BigHealth

/-- JSON/Python value model (numbers as integers). -/
inductive JValue where
  | jnull
  | jbool (b : Bool)
  | jint (n : Int)
  | jstr (s : String)
  | jarr (xs : List JValue)
  | jobj (fields : List (String × JValue))
deriving Repr

/-- Python truthiness (`bool(x)`): `None`, `False`, `0`, `""`, `[]`, and
an empty dict are falsy; everything else is truthy. -/
def JValue.truthy : JValue → Bool
  | .jnull => false
  | .jbool b => b
  | .jint n => n != 0
  | .jstr s => s != ""
  | .jarr xs => !xs.isEmpty
  | .jobj fields => !fields.isEmpty

/-- Whether the value is a mapping (`isinstance(x, dict)`). -/
def JValue.isObj : JValue → Bool
  | .jobj _ => true
  | _ => false

/-- First-match association-list lookup, i.e. `d[k]` / `d.get(k)` on a
Python dict (keys are unique in a real dict, so first match is the match). -/
def jlookup (k : String) : List (String × JValue) → Option JValue
  | [] => none
  | (k', v) :: rest => if k' = k then some v else jlookup k rest

/-- Assignment `d[k] = v` on a Python dict: replace the value in place if the key is
present, otherwise append the new key at the end (insertion order). -/
def jsetKey (m : List (String × JValue)) (k : String) (v : JValue) : List (String × JValue) :=
  match m with
  | [] => [(k, v)]
  | (k', v') :: rest => if k' = k then (k, v) :: rest else (k', v') :: jsetKey rest k v

/-- Python `str.lower()` (ASCII). -/
def pyLower (s : String) : String := ⟨s.data.map Char.toLower⟩

/-- Python `s.endswith(suffix)`. -/
def pyEndsWith (s suffix : String) : Bool := suffix.data.isSuffixOf s.data

/-- Python `s[:-n]` for `n ≥ 1` (drop the last `n` characters). -/
def pyDropRight (n : Nat) (s : String) : String := ⟨s.data.take (s.data.length - n)⟩

/-- Python `c in s` for a single character. -/
def pyContainsChar (s : String) (c : Char) : Bool := s.data.contains c

/-- Python `s.split('_')`. -/
def pySplitUnderscore (s : String) : List (List Char) := s.data.splitOn '_'

/-- Python `s.isalnum()` (ASCII): non-empty and every character alphanumeric. -/
def pyIsAlnum (s : String) : Bool := !s.data.isEmpty && s.data.all Char.isAlphanum

/-- Python `s.isdigit()` (ASCII): non-empty and every character a digit. -/
def pyIsDigit (s : String) : Bool := !s.data.isEmpty && s.data.all Char.isDigit

/-- Python `s.replace(old, '')` for a single-character pattern: removes every
occurrence of the character. -/
def pyRemoveChar (c : Char) (s : String) : String := ⟨s.data.filter (fun x => x ≠ c)⟩

/-- Python `repr(x)` for a Python/JSON value, used only through `str()` on
non-string containers; string escaping inside containers is not refined
further (no claim depends on it). -/
def pyRepr : JValue → String
  | .jnull => "None"
  | .jbool true => "True"
  | .jbool false => "False"
  | .jint n => toString n
  | .jstr s => "\x27" ++ s ++ "\x27"
  | .jarr xs => "[" ++ String.intercalate ", " (xs.attach.map (fun x => pyRepr x.1)) ++ "]"
  | .jobj fields =>
      "\x7b" ++
        String.intercalate ", "
          (fields.attach.map (fun kv => "\x27" ++ kv.1.1 ++ "\x27: " ++ pyRepr kv.1.2)) ++
      "\x7d"
decreasing_by
  · have := List.sizeOf_lt_of_mem x.2
    simp at this ⊢
    omega
  · have h1 := List.sizeOf_lt_of_mem kv.2
    rcases kv with ⟨⟨k, v⟩, hm⟩
    simp at h1 ⊢
    omega

/-- Python `str(x)`: identity on strings, `repr` otherwise. -/
def pyStr : JValue → String
  | .jstr s => s
  | v => pyRepr v

/-- Candidate fields inspected by
`qkview_directory_utils.extract_hostname_from_qkview_data`, in order. -/
def hostname_fields : List String :=
  ["hostname", "device_name", "name", "description", "file_name", "filename"]

/-- The clean-up applied to a winning candidate value in
`extract_hostname_from_qkview_data`: strip a `.qkview` suffix, strip a
trailing `_<date-ish>` segment, strip secondary archive extensions. -/
def cleanHostname (s : String) : String :=
  -- remove .qkview extension if present
  let h := if pyEndsWith (pyLower s) ".qkview" then pyDropRight 7 s else s
  -- if it is a filename like "hostname_date.qkview", keep just the hostname
  let h :=
    if pyContainsChar h '_' &&
        ((pySplitUnderscore h).getLastD []).any Char.isDigit then
      (⟨(pySplitUnderscore h).headD []⟩ : String)
    else h
  -- remove common file extensions, tested in this order on the running value
  [".tar", ".gz", ".tgz", ".zip"].foldl
    (fun h ext => if pyEndsWith (pyLower h) ext then pyDropRight ext.length h else h) h

/-- The "looks like a hostname" validation of
`extract_hostname_from_qkview_data`: non-empty, contains a dot, and is
alphanumeric after removing dots, hyphens and underscores. -/
def validHostname (h : String) : Bool :=
  h != "" && pyContainsChar h '.' &&
    pyIsAlnum (pyRemoveChar '_' (pyRemoveChar '-' (pyRemoveChar '.' h)))

/-- One iteration of the candidate-field loop: the field must be present and
truthy; its cleaned value is returned only if it passes validation. -/
def tryHostnameField (d : List (String × JValue)) (field : String) : Option String :=
  match jlookup field d with
  | some v =>
      if v.truthy then
        if validHostname (cleanHostname (pyStr v)) then some (cleanHostname (pyStr v))
        else none
      else none
  | none => none

/-- The candidate-field loop of `extract_hostname_from_qkview_data`: first
field whose cleaned value validates wins. -/
def firstHostname (d : List (String × JValue)) : List String → Option String
  | [] => none
  | f :: rest =>
      match tryHostnameField d f with
      | some h => some h
      | none => firstHostname d rest

/-- Source `qkview_directory_utils.extract_hostname_from_qkview_data`: falsy or
non-mapping input yields `"unknown_device"`; otherwise the candidate-field
loop runs, falling back to `"qkview_" + str(data.get('id', 'unknown'))`. -/
def extract_hostname_from_qkview_data (qkview_data : JValue) : String :=
  if !qkview_data.truthy || !qkview_data.isObj then "unknown_device"
  else
    match qkview_data with
    | .jobj d =>
        match firstHostname d hostname_fields with
        | some h => h
        | none => "qkview_" ++ pyStr ((jlookup "id" d).getD (.jstr "unknown"))
    | _ => "unknown_device"

/-- State of a directory's `metadata.json` file: either it is present but
`json.load` raises (`corrupt`), or it parses to a JSON document. -/
inductive MetaFile where
  | corrupt
  | parsed (v : JValue)

/-- One immediate subdirectory of the base path: its name and the state of
its `metadata.json` (`none` when the file is absent). -/
structure DirEntry where
  name : String
  meta : Option MetaFile

/-- The test `metadata.get('qkview_id') == qkview_id` inside the scan: callers pass
the identifier as a string, and a Python `==` between a string and any
non-string JSON value is `False`. -/
def matchesQid (m : List (String × JValue)) (qid : String) : Bool :=
  match jlookup "qkview_id" m with
  | some (.jstr s) => s = qid
  | _ => false

/-- The chain `metadata.get('directory_info', dict()).get('created_with_hostname', False)`:
`none` models the `AttributeError` raised when `directory_info` holds a
non-mapping value (caught by the surrounding `except`). -/
def dirFlag (m : List (String × JValue)) : Option JValue :=
  match (jlookup "directory_info" m).getD (.jobj []) with
  | .jobj di => some ((jlookup "created_with_hostname" di).getD (.jbool false))
  | _ => none

/-- The directory scan of `find_qkview_directory`: first subdirectory whose
parsed ledger is a mapping recording the queried identifier wins; corrupt or
non-mapping ledgers, ledgers for other identifiers, and directories without
a ledger are skipped.  Returns the directory name and the raw
`created_with_hostname` value. -/
def findQkviewEntry (qid : String) : List DirEntry → Option (String × JValue)
  | [] => none
  | d :: rest =>
      match d.meta with
      | some (.parsed (.jobj m)) =>
          if matchesQid m qid then
            match dirFlag m with
            | some flag => some (d.name, flag)
            | none => findQkviewEntry qid rest
          else findQkviewEntry qid rest
      | _ => findQkviewEntry qid rest

/-- Source `qkview_directory_utils.find_qkview_directory`: the scan above, with the
result rendered as `str(base_dir / item.name)`. -/
def find_qkview_directory (qid : String) (basePath : String) (dirs : List DirEntry) :
    Option (String × JValue) :=
  (findQkviewEntry qid dirs).map (fun p => (basePath ++ "/" ++ p.1, p.2))

/-- The per-directory body of `list_qkview_directories`: a readable mapping
ledger yields `(name, qkview_id, created_with_hostname)`; on an exception
(corrupt file, non-mapping document, non-mapping `directory_info`) or a
missing ledger, a purely-numeric directory name is kept as a legacy
`(name, name, False)` entry and anything else is dropped. -/
def listEntry (d : DirEntry) : Option (String × JValue × JValue) :=
  match d.meta with
  | some (.parsed (.jobj m)) =>
      match dirFlag m with
      | some flag => some (d.name, (jlookup "qkview_id" m).getD (.jstr "unknown"), flag)
      | none =>
          if pyIsDigit d.name then some (d.name, .jstr d.name, .jbool false) else none
  | some _ =>
      if pyIsDigit d.name then some (d.name, .jstr d.name, .jbool false) else none
  | none =>
      if pyIsDigit d.name then some (d.name, .jstr d.name, .jbool false) else none

/-- Ordering used by the final `sorted(qkview_dirs)`: Python compares the
tuples lexicographically, and because the first components are the names of
distinct subdirectories of one base directory (unique within a directory),
the comparison is decided by the first component. -/
def entryLe (a b : String × JValue × JValue) : Prop := a.1 ≤ b.1

/-- Strict version of `entryLe`, used to show the sorted output is uniquely
determined when directory names are distinct. -/
def entryLt (a b : String × JValue × JValue) : Prop := a.1 < b.1

instance : DecidableRel entryLe := fun a b => inferInstanceAs (Decidable (a.1 ≤ b.1))

instance : IsTotal (String × JValue × JValue) entryLe := ⟨fun a b => le_total a.1 b.1⟩

instance : IsTrans (String × JValue × JValue) entryLe := ⟨fun _ _ _ h1 h2 => le_trans h1 h2⟩

instance : IsAntisymm (String × JValue × JValue) entryLt :=
  ⟨fun _ _ h1 h2 => absurd h2 (lt_asymm h1)⟩

/-- Source `qkview_directory_utils.list_qkview_directories`: collect the per-entry
tuples in filesystem enumeration order, then `sorted(...)`. -/
def list_qkview_directories (dirs : List DirEntry) : List (String × JValue × JValue) :=
  List.insertionSort entryLe (dirs.filterMap listEntry)

/-- The recursive `deep_merge(dict1, dict2)` of
`update_qkview_metadata`: for every key of the update, if both sides hold
mappings merge recursively, otherwise the incoming value replaces the
existing one (in place, preserving insertion order). -/
def deepMergeObj : List (String × JValue) → List (String × JValue) → List (String × JValue)
  | d1, [] => d1
  | d1, (k, v) :: rest =>
      match jlookup k d1, v with
      | some (.jobj o1), .jobj o2 => deepMergeObj (jsetKey d1 k (.jobj (deepMergeObj o1 o2))) rest
      | _, _ => deepMergeObj (jsetKey d1 k v) rest
termination_by _ d2 => sizeOf d2
decreasing_by
  all_goals simp
  all_goals omega

/-- The `metadata.json` state of the named subdirectory, as re-read by
functions that first locate the directory and then reopen the file. -/
def getDirMeta (name : String) (dirs : List DirEntry) : Option MetaFile :=
  (dirs.find? (fun d => d.name = name)).bind (fun d => d.meta)

/-- Overwrite the named subdirectory's `metadata.json` with new content. -/
def setDirMeta (name : String) (mf : MetaFile) : List DirEntry → List DirEntry
  | [] => []
  | d :: rest =>
      if d.name = name then ⟨d.name, some mf⟩ :: rest else d :: setDirMeta name mf rest

/-- Python `mkdir(exist_ok=True)` on `<base>/<name>` followed by writing its
`metadata.json`: reuse the directory if present, else append it. -/
def upsertDir (name : String) (mf : MetaFile) : List DirEntry → List DirEntry
  | [] => [⟨name, some mf⟩]
  | d :: rest =>
      if d.name = name then ⟨d.name, some mf⟩ :: rest else d :: upsertDir name mf rest

/-- Source `qkview_directory_utils.update_qkview_metadata`.  Locate the directory
via the scan, else via the legacy `<base>/<id>/metadata.json` check; if
neither exists, print a warning and return with the update dropped.
Otherwise re-read the ledger without exception handling (`.error` models an
uncaught `json.JSONDecodeError` on a corrupt legacy ledger, or the
`TypeError` of deep-merging into a non-mapping document), deep-merge the
update, rewrite `last_updated`, and write the ledger back. -/
def update_qkview_metadata (qid : String) (updates : List (String × JValue)) (now : String)
    (dirs : List DirEntry) : Except String (List DirEntry) :=
  let target : Option String :=
    match findQkviewEntry qid dirs with
    | some (name, _) => some name
    | none =>
        if dirs.any (fun d => d.name = qid && d.meta.isSome) then some qid else none
  match target with
  | none => .ok dirs
  | some name =>
      match getDirMeta name dirs with
      | none => .ok dirs
      | some .corrupt => .error "json.JSONDecodeError"
      | some (.parsed (.jobj m)) =>
          .ok (setDirMeta name
            (.parsed (.jobj (jsetKey (deepMergeObj m updates) "last_updated" (.jstr now))))
            dirs)
      | some (.parsed _) => .error "TypeError"

/-- Source `_find_hostname_source`: first present-and-truthy candidate field, else
`"fallback_to_qkview_id"`.  (The source assumes a mapping; the non-mapping
branch here is unreachable from `create_metadata_first`'s uses in scope.) -/
def findHostnameSource (qkview_data : JValue) : String :=
  match qkview_data with
  | .jobj d =>
      match hostname_fields.find? (fun f => ((jlookup f d).map JValue.truthy).getD false) with
      | some f => f
      | none => "fallback_to_qkview_id"
  | _ => "fallback_to_qkview_id"

/-- Source `qkview_directory_utils.create_metadata_first`: reject a falsy detail
record, else derive the hostname, create the hostname directory, and write
the full ledger document.  Timestamps are passed in (`datetime.now()`). -/
def create_metadata_first (qid : String) (qkview_data : JValue) (basePath : String)
    (ts : String) (dirs : List DirEntry) :
    Except String (String × String × List DirEntry) :=
  if !qkview_data.truthy then .error "QKView data is required to create metadata"
  else
    let hostname := extract_hostname_from_qkview_data qkview_data
    let qkviewDir := basePath ++ "/" ++ hostname
    let metadata : JValue := .jobj
      [ ("qkview_id", .jstr qid),
        ("hostname", .jstr hostname),
        ("created_timestamp", .jstr ts),
        ("last_updated", .jstr ts),
        ("api_data", qkview_data),
        ("processing_status", .jobj
          [ ("metadata_created", .jbool true),
            ("diagnostics", .jbool false),
            ("qkview_downloaded", .jbool false),
            ("configuration", .jbool false),
            ("logs", .jbool false),
            ("system_info", .jbool false) ]),
        ("file_counts", .jobj
          [ ("diagnostics", .jint 0),
            ("configuration_files", .jint 0),
            ("log_files", .jint 0),
            ("irules", .jint 0) ]),
        ("directory_info", .jobj
          [ ("path", .jstr qkviewDir),
            ("created_with_hostname", .jbool true),
            ("hostname_extracted_from", .jstr (findHostnameSource qkview_data)) ]) ]
    .ok (hostname, qkviewDir, upsertDir hostname (.parsed metadata) dirs)

/-- Source `initialize_qkview_processing_metadata_first`: the same required-input
guard, then `create_metadata_first` (the raw API dump and README written
afterwards are regular files, outside the modelled ledger state). -/
def initialize_qkview_processing_metadata_first (qid : String) (qkview_data : JValue)
    (basePath : String) (ts : String) (dirs : List DirEntry) :
    Except String (String × String × List DirEntry) :=
  if !qkview_data.truthy then
    .error "QKView data is required for metadata-first initialization"
  else create_metadata_first qid qkview_data basePath ts dirs

/-- Python `int(x)` as used on ledger size fields; `none` models the
`ValueError`/`TypeError` caught by the surrounding loop. -/
def pyInt : JValue → Option Int
  | .jint n => some n
  | .jbool b => some (if b then 1 else 0)
  | .jstr s => s.toInt?
  | _ => none

/-- Size fields probed by `_get_expected_file_size_from_metadata`, in order. -/
def size_fields : List String :=
  ["file_size", "size", "filesize", "file_size_bytes", "content_length"]

/-- The size-field loop: first present-and-truthy field that converts to an
integer wins; conversion failures fall through to the next field. -/
def firstSizeField (ad : List (String × JValue)) : List String → Option Int
  | [] => none
  | f :: rest =>
      match jlookup f ad with
      | some v =>
          if v.truthy then
            match pyInt v with
            | some n => some n
            | none => firstSizeField ad rest
          else firstSizeField ad rest
      | none => firstSizeField ad rest

/-- Source `_get_expected_file_size_from_metadata`: locate the directory via the
scan, re-read its ledger, and probe `api_data` for a size field. -/
def getExpectedFileSizeFromMetadata (qid : String) (dirs : List DirEntry) : Option Int :=
  match findQkviewEntry qid dirs with
  | none => none
  | some (name, _) =>
      match getDirMeta name dirs with
      | some (.parsed (.jobj m)) =>
          match jlookup "api_data" m with
          | some (.jobj ad) => firstSizeField ad size_fields
          | _ => none
      | _ => none

/-- Outcome messages of `_validate_file_size`; the constructors carry the
raw byte counts that the source interpolates (as floating-point megabytes)
into its message strings. -/
inductive ValidationMsg where
  | noValidationNeeded
  | expectedZeroSizeFile
  | sizeValidated (actualBytes : Nat) (expectedBytes : Int)
  | sizeMismatch (actualBytes : Nat) (expectedBytes : Int)
deriving Repr, DecidableEq

/-- Source `_validate_file_size(file_path, expected_size, tolerance_percent)`:
the local file is `none` when absent, `some n` when present with size `n`
bytes.  The percentage arithmetic is modelled over `ℚ` (the source computes
it in binary floating point; no claim sits on an inexact boundary). -/
def validate_file_size (file : Option Nat) (expected_size : Option Int)
    (tolerance_percent : ℚ) : Bool × ValidationMsg :=
  match file, expected_size with
  | none, _ => (true, .noValidationNeeded)
  | _, none => (true, .noValidationNeeded)
  | some actual, some e =>
      if e = 0 then (decide (actual = 0), .expectedZeroSizeFile)
      else
        let diff_percent : ℚ := |(actual : ℚ) - (e : ℚ)| / (e : ℚ) * 100
        if diff_percent ≤ tolerance_percent then (true, .sizeValidated actual e)
        else (false, .sizeMismatch actual e)

/-- Outcome messages of `_should_download_qkview`, carrying the raw byte
counts the source formats into its reason strings. -/
inductive DownloadReason where
  | fileDoesNotExist
  | fileTooSmall (sizeBytes : Nat)
  | sizeMismatch (actualBytes : Nat) (expectedBytes : Int)
  | adequateSize (sizeBytes : Nat)
deriving Repr, DecidableEq

/-- Source `_should_download_qkview(file_path, qkview_id, base_path)`: fetch when
the file is missing or under the hard-coded `10 * 1024 * 1024`-byte floor;
then, when the ledger records a truthy expected size, fetch on a 10%
mismatch; otherwise skip. -/
def should_download_qkview (file : Option Nat) (qid : String) (dirs : List DirEntry) :
    Bool × DownloadReason :=
  match file with
  | none => (true, .fileDoesNotExist)
  | some file_size =>
      if file_size < 10 * 1024 * 1024 then (true, .fileTooSmall file_size)
      else
        match getExpectedFileSizeFromMetadata qid dirs with
        | some e =>
            if e ≠ 0 then
              if !(validate_file_size (some file_size) (some e) 10).1 then
                (true, .sizeMismatch file_size e)
              else (false, .adequateSize file_size)
            else (false, .adequateSize file_size)
        | none => (false, .adequateSize file_size)

/-- The `processing_status` sub-object of a ledger document, as a mapping
(`[]` when the key is absent or holds a non-mapping value). -/
def pOf (m : List (String × JValue)) : List (String × JValue) :=
  match jlookup "processing_status" m with
  | some (.jobj p) => p
  | _ => []

/-- Observer: the value of flag `k` inside a ledger's `processing_status`. -/
def psOf (m : List (String × JValue)) (k : String) : Option JValue :=
  jlookup k (pOf m)

/-- The update written by the diagnostics retrieval step. -/
def psUpdateDiagnostics : List (String × JValue) :=
  [("processing_status", .jobj [("diagnostics", .jbool true)])]

/-- The update written by the command-output retrieval step. -/
def psUpdateCommands : List (String × JValue) :=
  [("processing_status", .jobj [("commands", .jbool true)])]

/-- Merging the diagnostics update and then the commands update. -/
def mergeDiagThenCmds (m : List (String × JValue)) : List (String × JValue) :=
  deepMergeObj (deepMergeObj m psUpdateDiagnostics) psUpdateCommands

/-- Merging the commands update and then the diagnostics update. -/
def mergeCmdsThenDiag (m : List (String × JValue)) : List (String × JValue) :=
  deepMergeObj (deepMergeObj m psUpdateCommands) psUpdateDiagnostics

/-- A ledger used to instantiate the merge claims on concrete input. -/
def mC3 : List (String × JValue) :=
  [("qkview_id", .jstr "1"),
   ("processing_status", .jobj [("logs", .jbool false), ("diagnostics", .jbool false)])]

/-- A base directory holding one hostname-based directory that has no
`metadata.json` (the state left by an older code path). -/
def c4Dirs : List DirEntry := [⟨"bigip01.example.com", none⟩]

/-- Two legacy numeric directories, listed in one enumeration order. -/
def c9DirsA : List DirEntry := [⟨"2", none⟩, ⟨"1", none⟩]

/-- The same two directories, listed in the opposite enumeration order. -/
def c9DirsB : List DirEntry := [⟨"1", none⟩, ⟨"2", none⟩]

section Lemmas

lemma jlookup_jsetKey_self (m : List (String × JValue)) (k : String) (v : JValue) :
    jlookup k (jsetKey m k v) = some v := by
  induction m with
  | nil => simp [jsetKey, jlookup]
  | cons kv rest ih =>
      rcases kv with ⟨k', v'⟩
      by_cases h : k' = k
      · simp [jsetKey, h, jlookup]
      · simp [jsetKey, h, jlookup, ih]

lemma jlookup_jsetKey_ne (m : List (String × JValue)) (k k' : String) (v : JValue)
    (h : k' ≠ k) : jlookup k' (jsetKey m k v) = jlookup k' m := by
  induction m with
  | nil => simp [jsetKey, jlookup, Ne.symm h]
  | cons kv rest ih =>
      rcases kv with ⟨k'', v''⟩
      by_cases h2 : k'' = k
      · subst h2
        simp [jsetKey, jlookup, Ne.symm h]
      · simp [jsetKey, h2, jlookup, ih]

lemma deepMergeObj_nil (d1 : List (String × JValue)) : deepMergeObj d1 [] = d1 := by
  simp [deepMergeObj]

lemma deepMergeObj_single_bool (d1 : List (String × JValue)) (k : String) (b : Bool) :
    deepMergeObj d1 [(k, .jbool b)] = jsetKey d1 k (.jbool b) := by
  cases h : jlookup k d1 with
  | none => simp [deepMergeObj, h]
  | some v => cases v <;> simp [deepMergeObj, h]

lemma deepMergeObj_psUpdate (m : List (String × JValue)) (k2 : String) (b : Bool) :
    deepMergeObj m [("processing_status", .jobj [(k2, .jbool b)])] =
      jsetKey m "processing_status" (.jobj (jsetKey (pOf m) k2 (.jbool b))) := by
  cases h : jlookup "processing_status" m with
  | none => simp [deepMergeObj, h, pOf, jsetKey]
  | some v =>
      cases v <;> simp [deepMergeObj, h, pOf, jsetKey, deepMergeObj_single_bool]

lemma pOf_jsetKey_ps (m ps' : List (String × JValue)) :
    pOf (jsetKey m "processing_status" (.jobj ps')) = ps' := by
  simp [pOf, jlookup_jsetKey_self]

lemma jlookup_jsetKey_comm (P : List (String × JValue)) (k d c : String) (vd vc : JValue)
    (hdc : d ≠ c) :
    jlookup k (jsetKey (jsetKey P d vd) c vc) = jlookup k (jsetKey (jsetKey P c vc) d vd) := by
  by_cases hkc : k = c
  · subst hkc
    rw [jlookup_jsetKey_self, jlookup_jsetKey_ne _ _ _ _ (Ne.symm hdc), jlookup_jsetKey_self]
  · by_cases hkd : k = d
    · subst hkd
      rw [jlookup_jsetKey_ne _ _ _ _ hkc, jlookup_jsetKey_self, jlookup_jsetKey_self]
    · rw [jlookup_jsetKey_ne _ _ _ _ hkc, jlookup_jsetKey_ne _ _ _ _ hkd,
        jlookup_jsetKey_ne _ _ _ _ hkd, jlookup_jsetKey_ne _ _ _ _ hkc]

lemma mergeDiagThenCmds_eq (m : List (String × JValue)) :
    mergeDiagThenCmds m =
      jsetKey (jsetKey m "processing_status" (.jobj (jsetKey (pOf m) "diagnostics" (.jbool true))))
        "processing_status"
        (.jobj (jsetKey (jsetKey (pOf m) "diagnostics" (.jbool true)) "commands" (.jbool true))) := by
  unfold mergeDiagThenCmds psUpdateDiagnostics psUpdateCommands
  rw [deepMergeObj_psUpdate, deepMergeObj_psUpdate, pOf_jsetKey_ps]

lemma mergeCmdsThenDiag_eq (m : List (String × JValue)) :
    mergeCmdsThenDiag m =
      jsetKey (jsetKey m "processing_status" (.jobj (jsetKey (pOf m) "commands" (.jbool true))))
        "processing_status"
        (.jobj (jsetKey (jsetKey (pOf m) "commands" (.jbool true)) "diagnostics" (.jbool true))) := by
  unfold mergeCmdsThenDiag psUpdateDiagnostics psUpdateCommands
  rw [deepMergeObj_psUpdate, deepMergeObj_psUpdate, pOf_jsetKey_ps]

end Lemmas

/-- C3: applying the diagnostics update and then the commands update to any
ledger yields a `processing_status` with both flags true; every other flag
of `processing_status` and every other top-level key of the ledger are
unchanged; and performing the two merges in the opposite order yields the
same `processing_status` contents and the same other top-level keys. -/
theorem c3_ledger_merge_disjoint (m : List (String × JValue)) :
    psOf (mergeDiagThenCmds m) "diagnostics" = some (.jbool true) ∧
    psOf (mergeDiagThenCmds m) "commands" = some (.jbool true) ∧
    (∀ k, k ≠ "diagnostics" → k ≠ "commands" → psOf (mergeDiagThenCmds m) k = psOf m k) ∧
    (∀ k, k ≠ "processing_status" → jlookup k (mergeDiagThenCmds m) = jlookup k m) ∧
    (∀ k, psOf (mergeDiagThenCmds m) k = psOf (mergeCmdsThenDiag m) k) ∧
    (∀ k, k ≠ "processing_status" → jlookup k (mergeCmdsThenDiag m) = jlookup k m) := by
  have hd : ("diagnostics" : String) ≠ "commands" := by decide
  refine ⟨?_, ?_, ?_, ?_, ?_, ?_⟩
  · rw [psOf, mergeDiagThenCmds_eq, pOf_jsetKey_ps,
      jlookup_jsetKey_ne _ _ _ _ hd, jlookup_jsetKey_self]
  · rw [psOf, mergeDiagThenCmds_eq, pOf_jsetKey_ps, jlookup_jsetKey_self]
  · intro k hk1 hk2
    rw [psOf, psOf, mergeDiagThenCmds_eq, pOf_jsetKey_ps,
      jlookup_jsetKey_ne _ _ _ _ hk2, jlookup_jsetKey_ne _ _ _ _ hk1]
  · intro k hk
    rw [mergeDiagThenCmds_eq, jlookup_jsetKey_ne _ _ _ _ hk, jlookup_jsetKey_ne _ _ _ _ hk]
  · intro k
    rw [psOf, psOf, mergeDiagThenCmds_eq, mergeCmdsThenDiag_eq, pOf_jsetKey_ps, pOf_jsetKey_ps]
    exact jlookup_jsetKey_comm (pOf m) k "diagnostics" "commands" (.jbool true) (.jbool true) hd
  · intro k hk
    rw [mergeCmdsThenDiag_eq, jlookup_jsetKey_ne _ _ _ _ hk, jlookup_jsetKey_ne _ _ _ _ hk]

/-- C3 witness: the merge claims instantiated on a concrete ledger. -/
theorem c3_ledger_merge_disjoint_witness :
    psOf (mergeDiagThenCmds mC3) "diagnostics" = some (.jbool true) ∧
    psOf (mergeDiagThenCmds mC3) "commands" = some (.jbool true) ∧
    psOf (mergeDiagThenCmds mC3) "logs" = psOf mC3 "logs" ∧
    jlookup "qkview_id" (mergeDiagThenCmds mC3) = jlookup "qkview_id" mC3 ∧
    psOf (mergeDiagThenCmds mC3) "logs" = psOf (mergeCmdsThenDiag mC3) "logs" :=
  ⟨(c3_ledger_merge_disjoint mC3).1,
   (c3_ledger_merge_disjoint mC3).2.1,
   (c3_ledger_merge_disjoint mC3).2.2.1 "logs" (by decide) (by decide),
   (c3_ledger_merge_disjoint mC3).2.2.2.1 "qkview_id" (by decide),
   (c3_ledger_merge_disjoint mC3).2.2.2.2.1 "logs"⟩

/-- C5: post-download size validation with expected size exactly zero is
valid exactly when the actual size is zero; the zero case is answered by
the dedicated branch (the message is `"Expected zero-size file"`), so the
percentage computation is never reached with a zero divisor. -/
theorem c5_size_validation_zero_case :
    (validate_file_size (some 0) (some 0) 5).1 = true ∧
    (validate_file_size (some 1) (some 0) 5).1 = false ∧
    ∀ (actual : Nat) (tol : ℚ),
      validate_file_size (some actual) (some 0) tol =
        (decide (actual = 0), .expectedZeroSizeFile) := by
  refine ⟨rfl, rfl, fun actual tol => ?_⟩
  simp [validate_file_size]

/-- C10: `_validate_file_size` passes vacuously when the file is absent or
no expected size is known, returning valid with the
`"No validation needed"` message. -/
theorem c10_validate_vacuous_on_missing :
    (∀ (e : Option Int) (tol : ℚ),
        validate_file_size none e tol = (true, .noValidationNeeded)) ∧
    (∀ (file : Option Nat) (tol : ℚ),
        validate_file_size file none tol = (true, .noValidationNeeded)) := by
  constructor
  · intro e tol
    cases e <;> rfl
  · intro file tol
    cases file <;> rfl

/-- C1 counterexample: the archive pre-download floor in the code is
`10 * 1024 * 1024 = 10485760` bytes, not `10_000_000`: with no expected
size recorded, an existing file of exactly `10_000_000` bytes still
triggers a fetch (the claim says it must not). -/
theorem c1_freshness_gate_counterexample :
    should_download_qkview (some 10000000) "123" [] = (true, .fileTooSmall 10000000) := rfl

/-- C1 amended: with the floor the code actually uses
(`10 * 1024 * 1024 = 10_485_760` bytes) and no applicable expected-size
record, a file of exactly `10_485_759` bytes (and one of `9_999_999` bytes)
triggers a fetch, and a file of exactly `10_485_760` bytes does not. -/
theorem c1_freshness_gate_boundary (qid : String) (dirs : List DirEntry)
    (h : getExpectedFileSizeFromMetadata qid dirs = none) :
    (should_download_qkview (some 10485759) qid dirs).1 = true ∧
    (should_download_qkview (some 9999999) qid dirs).1 = true ∧
    (should_download_qkview (some 10485760) qid dirs).1 = false := by
  refine ⟨?_, ?_, ?_⟩ <;> simp [should_download_qkview, h]

/-- C1 witness: the boundary facts at a concrete identifier and an empty
base directory (no ledger, hence no expected size). -/
theorem c1_freshness_gate_boundary_witness :
    (should_download_qkview (some 10485759) "123" []).1 = true ∧
    (should_download_qkview (some 9999999) "123" []).1 = true ∧
    (should_download_qkview (some 10485760) "123" []).1 = false :=
  c1_freshness_gate_boundary "123" [] rfl

/-- C8: metadata-first initialization with a falsy (missing/empty) detail
record raises `ValueError` immediately, in both `create_metadata_first` and
`initialize_qkview_processing_metadata_first`, before any directory or
ledger is touched (the error return carries no filesystem change). -/
theorem c8_required_input_absence (qid : String) (qkview_data : JValue)
    (basePath ts : String) (dirs : List DirEntry)
    (h : qkview_data.truthy = false) :
    create_metadata_first qid qkview_data basePath ts dirs =
      .error "QKView data is required to create metadata" ∧
    initialize_qkview_processing_metadata_first qid qkview_data basePath ts dirs =
      .error "QKView data is required for metadata-first initialization" := by
  constructor
  · simp [create_metadata_first, h]
  · simp [initialize_qkview_processing_metadata_first, h]

/-- C8 witness: the guard fires on `None` input. -/
theorem c8_required_input_absence_witness :
    create_metadata_first "123" .jnull "QKViews" "T0" [] =
      .error "QKView data is required to create metadata" ∧
    initialize_qkview_processing_metadata_first "123" .jnull "QKViews" "T0" [] =
      .error "QKView data is required for metadata-first initialization" :=
  c8_required_input_absence "123" .jnull "QKViews" "T0" [] rfl

/-- C4 counterexample: invoking the ledger merge for an identifier whose
directory has no `metadata.json` does not synthesize a ledger and does not
apply the update — the state is returned unchanged (only a warning is
printed). -/
theorem c4_merge_missing_ledger_counterexample :
    update_qkview_metadata "123" psUpdateDiagnostics "T0" c4Dirs = .ok c4Dirs ∧
    getDirMeta "bigip01.example.com" c4Dirs = none := ⟨rfl, rfl⟩

/-- C4 amended: whenever no directory's ledger records the identifier and
no legacy identifier-named directory with a `metadata.json` exists,
`update_qkview_metadata` returns with the state unchanged: the update is
silently dropped (with a warning) rather than a minimal ledger being
synthesized. -/
theorem c4_merge_missing_ledger (qid : String) (updates : List (String × JValue))
    (now : String) (dirs : List DirEntry)
    (h1 : findQkviewEntry qid dirs = none)
    (h2 : dirs.any (fun d => d.name = qid && d.meta.isSome) = false) :
    update_qkview_metadata qid updates now dirs = .ok dirs := by
  simp [update_qkview_metadata, h1, h2]

/-- C4 witness: the drop observed on a concrete ledger-less directory. -/
theorem c4_merge_missing_ledger_witness :
    update_qkview_metadata "123" psUpdateDiagnostics "T0" c4Dirs = .ok c4Dirs :=
  c4_merge_missing_ledger "123" psUpdateDiagnostics "T0" c4Dirs rfl rfl

section NamingLemmas

lemma tryHostnameField_eq_none_of_unusable (d : List (String × JValue)) (f : String)
    (h : (!((jlookup f d).map JValue.truthy).getD false) = true) :
    tryHostnameField d f = none := by
  cases hl : jlookup f d with
  | none => simp [tryHostnameField, hl]
  | some v =>
      simp [hl] at h
      simp [tryHostnameField, hl, h]

lemma firstHostname_eq_none_of_all_unusable (d : List (String × JValue)) :
    ∀ fs : List String,
      fs.all (fun f => !((jlookup f d).map JValue.truthy).getD false) = true →
      firstHostname d fs = none := by
  intro fs
  induction fs with
  | nil => intro _; rfl
  | cons f rest ih =>
      intro h
      simp only [List.all_cons, Bool.and_eq_true] at h
      simp [firstHostname, tryHostnameField_eq_none_of_unusable d f h.1, ih h.2]

lemma ifValid_eq_some {s hn : String}
    (h : (if validHostname s = true then some s else none) = some hn) :
    validHostname hn = true := by
  by_cases hv : validHostname s = true
  · rw [if_pos hv] at h
    injection h with h
    exact h ▸ hv
  · rw [if_neg hv] at h
    exact absurd h (by simp)

lemma tryHostnameField_valid (d : List (String × JValue)) (f : String) (hn : String)
    (h : tryHostnameField d f = some hn) : validHostname hn = true := by
  cases hl : jlookup f d with
  | none => simp [tryHostnameField, hl] at h
  | some v =>
      simp only [tryHostnameField, hl] at h
      by_cases ht : v.truthy = true
      · rw [if_pos ht] at h
        exact ifValid_eq_some h
      · rw [if_neg ht] at h
        exact absurd h (by simp)

lemma firstHostname_valid (d : List (String × JValue)) :
    ∀ (fs : List String) (hn : String),
      firstHostname d fs = some hn → validHostname hn = true := by
  intro fs
  induction fs with
  | nil => intro hn h; exact absurd h (by simp [firstHostname])
  | cons f rest ih =>
      intro hn h
      unfold firstHostname at h
      cases htf : tryHostnameField d f with
      | none => rw [htf] at h; exact ih hn h
      | some hn' =>
          rw [htf] at h
          injection h with h
          rw [← h]
          exact tryHostnameField_valid d f hn' htf

lemma validHostname_ne_empty (hn : String) (h : validHostname hn = true) : hn ≠ "" := by
  unfold validHostname at h
  simp only [Bool.and_eq_true] at h
  exact bne_iff_ne.mp h.1.1

lemma qkview_append_ne_empty (s : String) : ("qkview_" ++ s) ≠ "" := by
  intro h
  have hlen := congrArg String.length h
  rw [String.length_append] at hlen
  have h7 : "qkview_".length = 7 := rfl
  have h0 : "".length = 0 := rfl
  omega

end NamingLemmas

/-- C2 counterexample: on `None` input the Naming Resolver returns
`"unknown_device"`, which is not of the form `qkview_<identifier>` (it does
not even start with `qkview_`). -/
theorem c2_naming_fallback_counterexample :
    extract_hostname_from_qkview_data .jnull = "unknown_device" ∧
    "unknown_device".data.take 7 ≠ "qkview_".data :=
  ⟨rfl, by decide⟩

/-- C2 amended: for falsy or non-mapping input (`None`, a non-dict value,
or an empty dict) the resolver returns the non-empty fallback
`"unknown_device"`; for a non-empty mapping in which no candidate field is
present and truthy it returns `"qkview_" + str(record.get('id','unknown'))`;
and on every input whatsoever it returns a non-empty string (the model is a
total function, so it never raises). -/
theorem c2_naming_fallback :
    (∀ v : JValue, (!v.truthy || !v.isObj) = true →
        extract_hostname_from_qkview_data v = "unknown_device") ∧
    (∀ d : List (String × JValue), d.isEmpty = false →
        hostname_fields.all (fun f => !((jlookup f d).map JValue.truthy).getD false) = true →
        extract_hostname_from_qkview_data (.jobj d) =
          "qkview_" ++ pyStr ((jlookup "id" d).getD (.jstr "unknown"))) ∧
    (∀ v : JValue, extract_hostname_from_qkview_data v ≠ "") := by
  refine ⟨?_, ?_, ?_⟩
  · intro v h
    simp [extract_hostname_from_qkview_data, h]
  · intro d hne hall
    simp [extract_hostname_from_qkview_data, JValue.truthy, JValue.isObj, hne,
      firstHostname_eq_none_of_all_unusable d hostname_fields hall]
  · intro v
    by_cases hg : (!v.truthy || !v.isObj) = true
    · simp [extract_hostname_from_qkview_data, hg]
    · cases v with
      | jobj d =>
          unfold extract_hostname_from_qkview_data
          rw [if_neg hg]
          cases hfh : firstHostname d hostname_fields with
          | some hn =>
              simp only [hfh]
              exact validHostname_ne_empty hn (firstHostname_valid d hostname_fields hn hfh)
          | none =>
              simp only [hfh]
              exact qkview_append_ne_empty _
      | jnull => exact absurd (by simp [JValue.isObj]) hg
      | jbool b => exact absurd (by simp [JValue.isObj]) hg
      | jint n => exact absurd (by simp [JValue.isObj]) hg
      | jstr s => exact absurd (by simp [JValue.isObj]) hg
      | jarr xs => exact absurd (by simp [JValue.isObj]) hg

/-- C2 witness: the fallback observed on `None` and on a record holding
only an `id` field. -/
theorem c2_naming_fallback_witness :
    extract_hostname_from_qkview_data .jnull = "unknown_device" ∧
    extract_hostname_from_qkview_data (.jobj [("id", .jstr "999")]) = "qkview_999" ∧
    extract_hostname_from_qkview_data (.jobj [("id", .jstr "999")]) ≠ "" := by
  refine ⟨c2_naming_fallback.1 .jnull rfl, ?_, c2_naming_fallback.2.2 _⟩
  have h := c2_naming_fallback.2.1 [("id", .jstr "999")] rfl rfl
  rw [h]
  rfl

/-- C6: on a fresh base directory, `create_metadata_first` with identifier
`"123"` and detail `hostname = bigip01.example.com` creates the
hostname-addressed directory `QKViews/bigip01.example.com`, and
`find_qkview_directory "123"` then resolves to that same path with
`created_with_hostname = True`. -/
theorem c6_resolve_after_create_round_trip :
    ∃ fs1 : List DirEntry,
      create_metadata_first "123" (.jobj [("hostname", .jstr "bigip01.example.com")])
          "QKViews" "T0" [] =
        .ok ("bigip01.example.com", "QKViews/bigip01.example.com", fs1) ∧
      find_qkview_directory "123" "QKViews" fs1 =
        some ("QKViews/bigip01.example.com", .jbool true) :=
  ⟨_, rfl, rfl⟩

section ScanLemmas

lemma findQkviewEntry_cons_corrupt (qid : String) (d0 : DirEntry) (rest : List DirEntry)
    (h : d0.meta = some .corrupt) :
    findQkviewEntry qid (d0 :: rest) = findQkviewEntry qid rest := by
  simp [findQkviewEntry, h]

lemma findQkviewEntry_cons_elim (qid : String) (d0 : DirEntry) (rest : List DirEntry)
    (n : String) (fl : JValue)
    (h : findQkviewEntry qid (d0 :: rest) = some (n, fl)) :
    n = d0.name ∨ findQkviewEntry qid rest = some (n, fl) := by
  unfold findQkviewEntry at h
  split at h
  next m heq =>
    split at h
    next hm =>
      split at h
      next flag heq2 =>
        injection h with h
        exact Or.inl (congrArg Prod.fst h).symm
      next heq2 => exact Or.inr h
    next hm => exact Or.inr h
  next heq => exact Or.inr h

lemma findQkviewEntry_name_mem (qid : String) :
    ∀ (dirs : List DirEntry) (n : String) (fl : JValue),
      findQkviewEntry qid dirs = some (n, fl) → n ∈ dirs.map DirEntry.name := by
  intro dirs
  induction dirs with
  | nil => intro n fl h; simp [findQkviewEntry] at h
  | cons d0 rest ih =>
      intro n fl h
      rcases findQkviewEntry_cons_elim qid d0 rest n fl h with heq | hrec
      · simp [heq]
      · simp [ih n fl hrec]

lemma listEntry_name (d0 : DirEntry) (e : String × JValue × JValue)
    (h : listEntry d0 = some e) : e.1 = d0.name := by
  unfold listEntry at h
  split at h
  next m heq =>
    split at h
    next flag heq2 =>
      injection h with h
      exact (congrArg Prod.fst h).symm
    next heq2 =>
      split at h
      · injection h with h
        exact (congrArg Prod.fst h).symm
      · exact absurd h (by simp)
  next heq hne =>
      split at h
      · injection h with h
        exact (congrArg Prod.fst h).symm
      · exact absurd h (by simp)
  next heq =>
      split at h
      · injection h with h
        exact (congrArg Prod.fst h).symm
      · exact absurd h (by simp)

lemma listEntry_corrupt_nondigit (d0 : DirEntry) (hcor : d0.meta = some .corrupt)
    (hdig : pyIsDigit d0.name = false) : listEntry d0 = none := by
  simp [listEntry, hcor, hdig]

lemma listEntry_corrupt_digit (d0 : DirEntry) (hcor : d0.meta = some .corrupt)
    (hdig : pyIsDigit d0.name = true) :
    listEntry d0 = some (d0.name, .jstr d0.name, .jbool false) := by
  simp [listEntry, hcor, hdig]

lemma names_sublist (dirs : List DirEntry) :
    List.Sublist ((dirs.filterMap listEntry).map Prod.fst) (dirs.map DirEntry.name) := by
  induction dirs with
  | nil => simp
  | cons d0 rest ih =>
      cases hle : listEntry d0 with
      | none =>
          simp only [List.filterMap_cons, hle, List.map_cons]
          exact ih.cons d0.name
      | some e =>
          simp only [List.filterMap_cons, hle, List.map_cons]
          rw [listEntry_name d0 e hle]
          exact ih.cons₂ d0.name

lemma entries_key_nodup (dirs : List DirEntry) (h : (dirs.map DirEntry.name).Nodup) :
    ((dirs.filterMap listEntry).map Prod.fst).Nodup :=
  h.sublist (names_sublist dirs)

lemma sorted_lt_of_sorted_le_nodup (l : List (String × JValue × JValue))
    (hs : l.Sorted entryLe) (hn : (l.map Prod.fst).Nodup) : l.Sorted entryLt :=
  hs.imp₂ (fun _ _ h1 h2 => lt_of_le_of_ne h1 h2) (List.pairwise_map.mp hn)

lemma findQkviewEntry_skips_corrupt (qid : String) :
    ∀ (dirs : List DirEntry) (d : DirEntry), d ∈ dirs → d.meta = some .corrupt →
      (dirs.map DirEntry.name).Nodup →
      ∀ fl : JValue, findQkviewEntry qid dirs ≠ some (d.name, fl) := by
  intro dirs
  induction dirs with
  | nil => intro d hmem _ _ fl h; simp at hmem
  | cons d0 rest ih =>
      intro d hmem hcor hnodup fl h
      rw [List.map_cons, List.nodup_cons] at hnodup
      obtain ⟨hnotin, hnodup'⟩ := hnodup
      rcases List.mem_cons.mp hmem with rfl | hmem'
      · rw [findQkviewEntry_cons_corrupt qid _ rest hcor] at h
        exact hnotin (findQkviewEntry_name_mem qid rest _ fl h)
      · rcases findQkviewEntry_cons_elim qid d0 rest _ fl h with heq | hrec
        · exact hnotin (heq ▸ List.mem_map.mpr ⟨d, hmem', rfl⟩)
        · exact ih d hmem' hcor hnodup' fl hrec

end ScanLemmas

/-- C7 counterexample: a corrupt-ledger directory whose name is purely
numeric is NOT absent from the enumeration — the exception fallback keeps
it as a legacy `(name, name, False)` entry. -/
theorem c7_corrupt_ledger_counterexample :
    list_qkview_directories [⟨"123", some .corrupt⟩] =
      [("123", .jstr "123", .jbool false)] := rfl

/-- C7 amended: a directory with an unparseable `metadata.json` is always
skipped by `find_qkview_directory` (it is never the resolved directory, and
nothing raises: the model is total); `list_qkview_directories` omits it when
its name is not purely numeric, but when the name is purely numeric the
exception fallback keeps it as a legacy `(name, name, False)` entry. -/
theorem c7_corrupt_ledger_tolerance (qid : String) (dirs : List DirEntry) (d : DirEntry)
    (hmem : d ∈ dirs) (hcor : d.meta = some .corrupt)
    (hnodup : (dirs.map DirEntry.name).Nodup) :
    (∀ fl : JValue, findQkviewEntry qid dirs ≠ some (d.name, fl)) ∧
    (pyIsDigit d.name = false → ∀ e ∈ list_qkview_directories dirs, e.1 ≠ d.name) ∧
    (pyIsDigit d.name = true →
      (d.name, .jstr d.name, .jbool false) ∈ list_qkview_directories dirs) := by
  refine ⟨findQkviewEntry_skips_corrupt qid dirs d hmem hcor hnodup, ?_, ?_⟩
  · intro hdig e he heq1
    unfold list_qkview_directories at he
    have he' : e ∈ dirs.filterMap listEntry :=
      (List.perm_insertionSort entryLe (dirs.filterMap listEntry)).mem_iff.mp he
    obtain ⟨d0, hd0, hle⟩ := List.mem_filterMap.mp he'
    have hname : e.1 = d0.name := listEntry_name d0 e hle
    have hd0d : d0 = d :=
      List.inj_on_of_nodup_map hnodup hd0 hmem (by rw [← hname, heq1])
    rw [hd0d, listEntry_corrupt_nondigit d hcor hdig] at hle
    exact absurd hle (by simp)
  · intro hdig
    unfold list_qkview_directories
    exact (List.perm_insertionSort entryLe (dirs.filterMap listEntry)).mem_iff.mpr
      (List.mem_filterMap.mpr ⟨d, hmem, listEntry_corrupt_digit d hcor hdig⟩)

/-- C7 witness: the tolerance facts at a concrete corrupt numeric-named
directory. -/
theorem c7_corrupt_ledger_tolerance_witness :
    findQkviewEntry "999" [⟨"777", some .corrupt⟩] ≠ some ("777", .jbool false) ∧
    ("777", .jstr "777", .jbool false) ∈
      list_qkview_directories [⟨"777", some .corrupt⟩] := by
  have h := c7_corrupt_ledger_tolerance "999" [⟨"777", some .corrupt⟩]
    ⟨"777", some .corrupt⟩ (by simp) rfl (by simp)
  exact ⟨h.1 (.jbool false), h.2.2 rfl⟩

/-- C9 (implicit): `list_qkview_directories` always returns its tuples
sorted, and — because the names of a directory's immediate subdirectories
are distinct — its output is the same for every filesystem enumeration
order of the same set of directories and ledgers. -/
theorem c9_enumerate_sorted (dirs dirs' : List DirEntry)
    (hnodup : (dirs.map DirEntry.name).Nodup) (hperm : dirs.Perm dirs') :
    (list_qkview_directories dirs).Sorted entryLe ∧
    list_qkview_directories dirs = list_qkview_directories dirs' := by
  constructor
  · exact List.sorted_insertionSort entryLe _
  · unfold list_qkview_directories
    have hp : (dirs.filterMap listEntry).Perm (dirs'.filterMap listEntry) :=
      hperm.filterMap listEntry
    have hperm12 :
        (List.insertionSort entryLe (dirs.filterMap listEntry)).Perm
          (List.insertionSort entryLe (dirs'.filterMap listEntry)) :=
      (List.perm_insertionSort entryLe _).trans
        (hp.trans (List.perm_insertionSort entryLe _).symm)
    have hnodup' : (dirs'.map DirEntry.name).Nodup :=
      (hperm.map DirEntry.name).nodup_iff.mp hnodup
    have hn1 : ((List.insertionSort entryLe (dirs.filterMap listEntry)).map Prod.fst).Nodup :=
      ((List.perm_insertionSort entryLe (dirs.filterMap listEntry)).map Prod.fst).nodup_iff.mpr
        (entries_key_nodup dirs hnodup)
    have hn2 : ((List.insertionSort entryLe (dirs'.filterMap listEntry)).map Prod.fst).Nodup :=
      ((List.perm_insertionSort entryLe (dirs'.filterMap listEntry)).map Prod.fst).nodup_iff.mpr
        (entries_key_nodup dirs' hnodup')
    exact List.eq_of_perm_of_sorted hperm12
      (sorted_lt_of_sorted_le_nodup _ (List.sorted_insertionSort entryLe _) hn1)
      (sorted_lt_of_sorted_le_nodup _ (List.sorted_insertionSort entryLe _) hn2)

/-- C9 witness: the sorted, order-independent output observed on two
enumeration orders of the same two directories. -/
theorem c9_enumerate_sorted_witness :
    (list_qkview_directories c9DirsA).Sorted entryLe ∧
    list_qkview_directories c9DirsA = list_qkview_directories c9DirsB := by
  have hp : c9DirsA.Perm c9DirsB := by
    unfold c9DirsA c9DirsB
    exact List.Perm.swap (⟨"1", none⟩ : DirEntry) (⟨"2", none⟩ : DirEntry) []
  exact c9_enumerate_sorted c9DirsA c9DirsB (by decide) hp

end BigHealth
